import Mathlib

/-!
Verification development for the PokerStars hand-history parser
(`src/handparser/stars.py`).  The Python class `PokerStarsHand` is shallowly
embedded: each `_parse_*` method becomes a Lean function on an explicit
`HandState` record, Python exceptions become an explicit `PyErr` error type
carried in `Except`, and the compiled regular expressions of the source are
transcribed into a small backtracking regex interpreter whose matching order
(leftmost alternative first, greedy star and option) mirrors Python `re`.
-/

set_option maxRecDepth 100000

/-! ## A small backtracking regex interpreter

The source compiles its patterns with `re.compile` and uses `.match` (anchored
at the start, not at the end) and `re.split`.  Every star in the source's
patterns ranges over a single-character class (`\d*`, `.*`), which the
constructor `starCls` captures; `{2}` repetitions are expanded.  Captured
groups are numbered by their position in the pattern.  Matching priority is
Python's: left alternative first, greedy star/option (longest first). -/

abbrev Captures := List (Nat × String)

inductive Regex where
  | eps
  | lit (c : Char)
  | cls (p : Char → Bool)
  | cat (a b : Regex)
  | alt (a b : Regex)
  | starCls (p : Char → Bool)
  | opt (a : Regex)
  | group (n : Nat) (a : Regex)
  | eos
deriving Inhabited

/-- Greedy matching of a starred character class: consume as many characters
satisfying `p` as possible, backtracking one character at a time. -/
def starCh {σ : Type} (p : Char → Bool) : List Char → Captures →
    (List Char → Captures → Option σ) → Option σ
  | [], caps, k => k [] caps
  | c :: cs, caps, k =>
    if p c then (starCh p cs caps k) <|> k (c :: cs) caps else k (c :: cs) caps

/-- Backtracking matcher in continuation-passing style.  The continuation
receives the unconsumed suffix and the captures recorded so far. -/
def mre {σ : Type} : Regex → List Char → Captures →
    (List Char → Captures → Option σ) → Option σ
  | .eps, s, caps, k => k s caps
  | .lit c, s, caps, k =>
    match s with
    | [] => none
    | x :: xs => if x = c then k xs caps else none
  | .cls p, s, caps, k =>
    match s with
    | [] => none
    | x :: xs => if p x then k xs caps else none
  | .cat a b, s, caps, k => mre a s caps (fun s1 caps1 => mre b s1 caps1 k)
  | .alt a b, s, caps, k => (mre a s caps k) <|> (mre b s caps k)
  | .starCls p, s, caps, k => starCh p s caps k
  | .opt a, s, caps, k => (mre a s caps k) <|> k s caps
  | .group n a, s, caps, k =>
    mre a s caps
      (fun s1 caps1 => k s1 ((n, String.mk (s.take (s.length - s1.length))) :: caps1))
  | .eos, s, caps, k =>
    match s with
    | [] => k [] caps
    | _ :: _ => none

/-- `re.match`: anchored at the start of the string, free at the end
(the source writes an explicit `$`, embedded as `Regex.eos`, where the end
is anchored). -/
def reMatch (r : Regex) (s : String) : Option Captures :=
  mre r s.data [] (fun _ caps => some caps)

/-- `match.group(n)`: the text captured by group `n` (every group of the
source's patterns participates in any successful match). -/
def grp (caps : Captures) (n : Nat) : String :=
  match caps.find? (fun p => p.1 == n) with
  | some p => p.2
  | none => ""

/-- Sequencing of a list of regexes. -/
def rcat (l : List Regex) : Regex := l.foldr Regex.cat Regex.eps

/-- A literal string as a regex. -/
def rstr (s : String) : Regex := rcat (s.data.map Regex.lit)

/-- `\d` -/
def rdigit : Regex := Regex.cls Char.isDigit

/-- `.` (any character except a newline, as in Python without DOTALL). -/
def rdot : Regex := Regex.cls (fun c => c != '\n')

/-- `.*` -/
def rdotStar : Regex := Regex.starCls (fun c => c != '\n')

/-- `\d*` -/
def rdigits : Regex := Regex.starCls Char.isDigit

/-! ## The segmenter (`_split_pattern` and `re.split`)

`_split_pattern = re.compile(r" ?\*\*\* ?\n?|\n")`.  `re.split` scans the
text left to right, splitting at every (non-empty) match of the pattern. -/

def delimRegex : Regex :=
  Regex.alt
    (rcat [Regex.opt (Regex.lit ' '), rstr "***", Regex.opt (Regex.lit ' '),
           Regex.opt (Regex.lit '\n')])
    (Regex.lit '\n')

/-- Try to match the split delimiter at the head of `s`; returns the remaining
suffix.  The length guard makes termination of the scanner manifest (the
delimiter always consumes at least one character; Python's `re.split` likewise
never splits on an empty match). -/
def delimStep (s : List Char) : Option { r : List Char // r.length < s.length } :=
  match mre delimRegex s [] (fun rest _ => some rest) with
  | some rest => if h : rest.length < s.length then some ⟨rest, h⟩ else none
  | none => none

/-- The splitting scan, structurally recursive on a fuel bound.  Every step
consumes at least one character (a delimiter match by the guard in
`delimStep`, otherwise one character moves into the accumulator), so with
`s.length + 1` fuel the `0` case is unreachable. -/
def resplitGo : Nat → List Char → List Char → List String
  | 0, acc, s => [String.mk (acc.reverse ++ s)]
  | fuel + 1, acc, s =>
    match delimStep s with
    | some ⟨rest, _⟩ => String.mk acc.reverse :: resplitGo fuel [] rest
    | none =>
      match s with
      | [] => [String.mk acc.reverse]
      | c :: cs => resplitGo fuel (c :: acc) cs

/-- `self._split_pattern.split(self.raw)` -/
def pySplit (s : String) : List String := resplitGo (s.data.length + 1) [] s.data

/-- `[ind for ind, elem in enumerate(self._splitted) if not elem]` -/
def sectionIndices (l : List String) : List Nat :=
  ((l.enum).filter (fun p => p.2 == "")).map (fun p => p.1)

/-! ## Python-level helpers

Errors the source can raise: `AttributeError` (calling `.group` on a failed
match, or reading a never-assigned attribute), `IndexError` (list indexing),
`ValueError` (`list.index`, `int()`, `strptime`), `InvalidOperation`
(`Decimal()` on a malformed literal).  `unrecognizedField` is the
`UnrecognizedFieldError` the spec ascribes to the closed enumeration tables
of the (absent) `handparser.common` module. -/

inductive PyErr where
  | attributeError
  | indexError
  | valueError
  | keyError (key : String)
  | invalidOperation
  | unrecognizedField (field : String) (value : String)
deriving DecidableEq, Inhabited

/-- Python sequence index normalization: a negative index counts from the
end; out of range raises `IndexError`. -/
def pyNormIdx (len : Nat) (i : Int) : Except PyErr Nat :=
  let j : Int := if i < 0 then i + len else i
  if 0 ≤ j ∧ j < len then .ok j.toNat else .error .indexError

/-- `l[i]` on a Python list. -/
def pyIndexGet {α : Type} (l : List α) (i : Int) : Except PyErr α :=
  match pyNormIdx l.length i with
  | .error e => .error e
  | .ok j =>
    match l.get? j with
    | some x => .ok x
    | none => .error .indexError

/-- `l[i] = v` on a Python list. -/
def pyListSet {α : Type} (l : List α) (i : Int) (v : α) : Except PyErr (List α) :=
  match pyNormIdx l.length i with
  | .error e => .error e
  | .ok j => .ok (l.set j v)

/-- `l[start:stop]` for non-negative bounds. -/
def pySlice {α : Type} (l : List α) (start stop : Nat) : List α :=
  (l.drop start).take (stop - start)

/-- `l.index(x)` (first index, `ValueError` = `none`). -/
def listIndexOf (l : List String) (x : String) : Option Nat :=
  l.findIdx? (fun t => t == x)

/-- `l.index(x, start)` (first index at or after `start`). -/
def listIndexFrom (l : List String) (x : String) (start : Nat) : Option Nat :=
  ((l.drop start).findIdx? (fun t => t == x)).map (· + start)

/-- Optional leading sign of a numeric literal (`int()` / `Decimal()`). -/
def pySign (cs : List Char) : Int × List Char :=
  match cs with
  | [] => (1, [])
  | c :: r =>
    if c = '+' then (1, r) else if c = '-' then (-1, r) else (1, c :: r)

/-- The numeric value of a digit string. -/
def natOfDigits (cs : List Char) : Nat :=
  cs.foldl (fun n c => n * 10 + (c.toNat - 48)) 0

/-- `int(s)`: an optional sign followed by at least one digit. -/
def pyInt (s : String) : Except PyErr Int :=
  let p := pySign s.data
  if p.2 ≠ [] ∧ p.2.all Char.isDigit then .ok (p.1 * natOfDigits p.2)
  else .error .valueError

/-- `Decimal(s)` as an exact rational, for the plain literals the source
feeds it (optional sign, digits, optional fractional part; exponent and
special forms of `decimal.Decimal` never occur here and are not modelled). -/
def pyDecimal (s : String) : Except PyErr Rat :=
  let p := pySign s.data
  let ip := p.2.takeWhile Char.isDigit
  let rest := p.2.dropWhile Char.isDigit
  match rest with
  | [] =>
    if ip.isEmpty then .error .invalidOperation
    else .ok ((p.1 : Rat) * (natOfDigits ip : Rat))
  | c :: fr =>
    if c = '.' ∧ fr.all Char.isDigit ∧ ¬(ip = [] ∧ fr = []) then
      .ok ((p.1 : Rat) * ((natOfDigits (ip ++ fr) : Rat) / (10 : Rat) ^ fr.length))
    else .error .invalidOperation

/-- `needle in hay` for strings (substring containment). -/
def isSubAt : List Char → List Char → Bool
  | [], _ => true
  | _ :: _, [] => false
  | n :: ns, h :: hs => n = h && isSubAt ns hs

def strContains (hay needle : String) : Bool :=
  let rec go : List Char → Bool
    | [] => isSubAt needle.data []
    | c :: cs => isSubAt needle.data (c :: cs) || go cs
  go hay.data

/-- `s.startswith(pre)`: prefix test (structural, mirroring Python
`str.startswith`). -/
def pyStartsWith (s pre : String) : Bool := isSubAt pre.data s.data

/-- `set.add`, with the set modelled as a duplicate-free list in insertion
order (the Python set's iteration order is arbitrary; all claims about
winners are stated through membership). -/
def setAdd (ws : List String) (w : String) : List String :=
  if w ∈ ws then ws else ws ++ [w]

/-- One `d[k] = v` step of building an `OrderedDict`: an existing key keeps
its position, a new key is appended. -/
def odInsert (l : List (String × Int)) (k : String) (v : Int) : List (String × Int) :=
  if l.any (fun p => p.1 = k) then l.map (fun p => if p.1 = k then (k, v) else p)
  else l ++ [(k, v)]

/-- `OrderedDict(pairs)`. -/
def odFromList (l : List (String × Int)) : List (String × Int) :=
  l.foldl (fun d p => odInsert d p.1 p.2) []

/-! ## Timestamp parsing

`datetime.strptime(s, '%Y/%m/%d %H:%M:%S')` restricted to this fixed format
(digit runs separated by the literal separators, with calendar range
checks), followed by `ET.localize`.  `ET` lives in the absent
`handparser.common`; modelled from the spec: the timestamp is attached to
the room's fixed local reporting zone. -/

structure PyDateTime where
  year : Nat
  month : Nat
  day : Nat
  hour : Nat
  minute : Nat
  second : Nat
  tz : String
deriving DecidableEq, Inhabited

def takeNat (cs : List Char) : Nat × List Char :=
  (natOfDigits (cs.takeWhile Char.isDigit), cs.dropWhile Char.isDigit)

def expectChar (c : Char) (cs : List Char) : Option (List Char) :=
  match cs with
  | [] => none
  | x :: xs => if x = c then some xs else none

def strptimeET (s : String) : Except PyErr PyDateTime :=
  let cs := s.data
  if (cs.takeWhile Char.isDigit).isEmpty then .error .valueError else
  let py := takeNat cs
  match expectChar '/' py.2 with
  | none => .error .valueError
  | some cs1 =>
    if (cs1.takeWhile Char.isDigit).isEmpty then .error .valueError else
    let pm := takeNat cs1
    match expectChar '/' pm.2 with
    | none => .error .valueError
    | some cs2 =>
      if (cs2.takeWhile Char.isDigit).isEmpty then .error .valueError else
      let pd := takeNat cs2
      match expectChar ' ' pd.2 with
      | none => .error .valueError
      | some cs3 =>
        if (cs3.takeWhile Char.isDigit).isEmpty then .error .valueError else
        let ph := takeNat cs3
        match expectChar ':' ph.2 with
        | none => .error .valueError
        | some cs4 =>
          if (cs4.takeWhile Char.isDigit).isEmpty then .error .valueError else
          let pmin := takeNat cs4
          match expectChar ':' pmin.2 with
          | none => .error .valueError
          | some cs5 =>
            if (cs5.takeWhile Char.isDigit).isEmpty then .error .valueError else
            let psec := takeNat cs5
            if psec.2 = [] ∧ 1 ≤ pm.1 ∧ pm.1 ≤ 12 ∧ 1 ≤ pd.1 ∧ pd.1 ≤ 31 ∧
               ph.1 ≤ 23 ∧ pmin.1 ≤ 59 ∧ psec.1 ≤ 61 then
              .ok ⟨py.1, pm.1, pd.1, ph.1, pmin.1, psec.1, "ET"⟩
            else .error .valueError

/-! ## The closed enumeration tables

`TYPES`, `GAMES` and `LIMITS` are imported from `handparser.common`, which is
not under `src/`. -/

/-- An apostrophe character, used inside string data. -/
def sqc : String := String.mk [Char.ofNat 39]

/-- Modelled from the spec: `handparser.common` (absent from `src/`) provides
`TYPES`, a closed mapping from the raw game-type token to a canonical value. -/
def TYPES : List (String × String) := [("Tournament", "TOUR")]

/-- Modelled from the spec: the closed game-variant table of
`handparser.common`. -/
def GAMES : List (String × String) :=
  [("Hold" ++ sqc ++ "em", "HOLDEM"), ("Omaha", "OMAHA")]

/-- Modelled from the spec: the closed limit-type table of
`handparser.common`. -/
def LIMITS : List (String × String) :=
  [("No Limit", "NL"), ("Pot Limit", "PL"), ("Limit", "FL")]

/-- Modelled from the spec: a lookup in a closed enumeration table; an
unrecognized raw value fails with `UnrecognizedFieldError`, which names the
offending field and the raw value. -/
def tableLookup (field : String) (tbl : List (String × String)) (key : String) :
    Except PyErr String :=
  match tbl.lookup key with
  | some v => .ok v
  | none => .error (.unrecognizedField field key)

/-! ## The source's compiled patterns

Transcribed group by group from `stars.py`; `re.VERBOSE` whitespace and
comments of `_header_pattern` are dropped, `[ ]` is a literal space.
Groups are numbered by position: in `_header_pattern`,
1 = poker_room, 2 = ident, 3 = game_type, 4 = tournament_ident, 5 = buyin,
6 = rake, 7 = currency, 8 = game, 9 = limit, 10 = tournament_level,
11 = sb, 12 = bb, 13 = date. -/

def header_pattern : Regex :=
  rcat [Regex.group 1 (rstr "PokerStars"), Regex.lit ' ',
        rstr "Hand #", Regex.group 2 rdigits, rstr ": ",
        Regex.group 3 (rstr "Tournament"), Regex.lit ' ',
        Regex.lit '#', Regex.group 4 rdigits, rstr ", ",
        Regex.lit '$', Regex.group 5 (rcat [rdigits, Regex.lit '.', rdigit, rdigit]),
        Regex.lit '+',
        Regex.lit '$', Regex.group 6 (rcat [rdigits, Regex.lit '.', rdigit, rdigit]),
        Regex.lit ' ',
        Regex.group 7 (Regex.alt (rstr "USD") (rstr "EUR")), Regex.lit ' ',
        Regex.group 8 rdotStar, Regex.lit ' ',
        Regex.group 9 (rstr "No Limit"), Regex.lit ' ',
        rstr "- Level ", Regex.group 10 rdotStar, Regex.lit ' ',
        Regex.lit '(', Regex.group 11 rdotStar, Regex.lit '/',
        Regex.group 12 rdotStar, rstr ") ",
        rstr "- ", rdotStar, Regex.lit ' ',
        Regex.lit '[', Regex.group 13 rdotStar, rstr " ET]", Regex.eos]

def table_pattern : Regex :=
  rcat [rstr ("Table " ++ sqc), Regex.group 1 rdotStar, rstr (sqc ++ " "),
        Regex.group 2 rdigit, rstr "-max Seat #", Regex.group 3 rdigit,
        rstr " is the button", Regex.eos]

def seat_pattern : Regex :=
  rcat [rstr "Seat ", Regex.group 1 rdigit, rstr ": ", Regex.group 2 rdotStar,
        rstr " (", Regex.group 3 rdigits, rstr " in chips)", Regex.eos]

def dealt_to_pattern : Regex :=
  rcat [rstr "Dealt to ", Regex.group 1 rdotStar, rstr " [",
        Regex.group 2 (rcat [rdot, rdot]), Regex.lit ' ',
        Regex.group 3 (rcat [rdot, rdot]), rstr "]", Regex.eos]

def pot_pattern : Regex :=
  rcat [rstr "Total pot ", Regex.group 1 rdigits, Regex.lit ' ', rdotStar,
        rstr "| Rake ", Regex.group 2 rdigits, Regex.eos]

def winner_pattern : Regex :=
  rcat [rstr "Seat ", Regex.group 1 rdigit, rstr ": ", Regex.group 2 rdotStar,
        rstr " collected (", Regex.group 3 rdigits, rstr ")", Regex.eos]

def showdown_pattern : Regex :=
  rcat [rstr "Seat ", Regex.group 1 rdigit, rstr ": ", Regex.group 2 rdotStar,
        rstr " showed ", rdotStar, rstr " and won"]

def ante_pattern : Regex :=
  rcat [rdotStar, rstr "posts the ante ", Regex.group 1 rdigits]

/-- `_board_pattern.findall`: all non-overlapping matches of
`(?<=[\[ ])(..)(?=[\] ])` — two non-newline characters preceded by a bracket
or space and followed by a bracket or space (the lookarounds consume
nothing, so scanning resumes right after the two captured characters). -/
def boardScan : Option Char → List Char → List String
  | _, [] => []
  | _, [_] => []
  | prev, a :: b :: rest =>
    if (prev = some '[' ∨ prev = some ' ') ∧ a ≠ '\n' ∧ b ≠ '\n' ∧
       (rest.head? = some ']' ∨ rest.head? = some ' ') then
      String.mk [a, b] :: boardScan (some b) rest
    else
      boardScan (some a) (b :: rest)

def boardFindall (s : String) : List String := boardScan none s.data

/-! ## The hand state

One record holding every attribute the source assigns.  `none` is a Python
attribute that was never assigned (reading it raises `AttributeError`);
for the street attributes, whose value can itself be Python `None`, the
inner `Option` distinguishes an assigned `None` from real data. -/

structure HandState where
  raw : String := ""
  header_parsed : Bool := false
  parsed : Bool := false
  splitted : List String := []
  sections : List Nat := []
  game_type : Option String := none
  sb : Option Rat := none
  bb : Option Rat := none
  buyin : Option Rat := none
  rake : Option Rat := none
  date : Option PyDateTime := none
  game : Option String := none
  limit : Option String := none
  ident : Option String := none
  tournament_ident : Option String := none
  tournament_level : Option String := none
  currency : Option String := none
  table_name : Option String := none
  max_players : Option Int := none
  button_seat : Option Int := none
  button : Option String := none
  players : Option (List (String × Int)) := none
  hero : Option String := none
  hero_seat : Option Int := none
  hero_hole_cards : Option (String × String) := none
  preflop_actions : Option (List String) := none
  flop : Option (Option (List String)) := none
  flop_actions : Option (Option (List String)) := none
  turn : Option (Option String) := none
  turn_actions : Option (Option (List String)) := none
  river : Option (Option String) := none
  river_actions : Option (Option (List String)) := none
  show_down : Option Bool := none
  total_pot : Option Int := none
  board : Option (Option (List String)) := none
  winners : Option (List String) := none
deriving DecidableEq, Inhabited

/-- `__init__(hand_text, parse=True)` up to (not including) the `parse()`
call.  The base-class part (`PokerHand.__init__`) lives in the absent
`handparser.common`; modelled from the spec: it stores the raw text, and
parsing state starts out unset.  The splitting and the recording of the
empty-token indices are from the source. -/
def initState (hand_text : String) : HandState :=
  let splitted := pySplit hand_text
  { raw := hand_text, splitted := splitted, sections := sectionIndices splitted }

/-! ## The parsing steps -/

/-- `parse_header` -/
def parse_header (st : HandState) : Except PyErr HandState :=
  match pyIndexGet st.splitted 0 with
  | .error e => .error e
  | .ok line =>
  match reMatch header_pattern line with
  | none => .error .attributeError
  | some caps =>
  match tableLookup "game_type" TYPES (grp caps 3) with
  | .error e => .error e
  | .ok game_type =>
  match pyDecimal (grp caps 11) with
  | .error e => .error e
  | .ok sb =>
  match pyDecimal (grp caps 12) with
  | .error e => .error e
  | .ok bb =>
  match pyDecimal (grp caps 5) with
  | .error e => .error e
  | .ok buyin =>
  match pyDecimal (grp caps 6) with
  | .error e => .error e
  | .ok rake =>
  match strptimeET (grp caps 13) with
  | .error e => .error e
  | .ok date =>
  match tableLookup "game" GAMES (grp caps 8) with
  | .error e => .error e
  | .ok game =>
  match tableLookup "limit" LIMITS (grp caps 9) with
  | .error e => .error e
  | .ok limit =>
    .ok { st with game_type := some game_type, sb := some sb, bb := some bb,
                  buyin := some buyin, rake := some rake, date := some date,
                  game := some game, limit := some limit,
                  ident := some (grp caps 2),
                  tournament_ident := some (grp caps 4),
                  tournament_level := some (grp caps 10),
                  currency := some (grp caps 7),
                  header_parsed := true }

/-- `_parse_table` -/
def parse_table (st : HandState) : Except PyErr HandState :=
  match pyIndexGet st.splitted 1 with
  | .error e => .error e
  | .ok line =>
  match reMatch table_pattern line with
  | none => .error .attributeError
  | some caps =>
  match pyInt (grp caps 2) with
  | .error e => .error e
  | .ok mp =>
  match pyInt (grp caps 3) with
  | .error e => .error e
  | .ok bs =>
    .ok { st with table_name := some (grp caps 1), max_players := some mp,
                  button_seat := some bs }

/-- The placeholder seat list
`[('Empty Seat %s' % num, 0) for num in range(1, self.max_players + 1)]`. -/
def placeholders (mp : Int) : List (String × Int) :=
  (List.range mp.toNat).map (fun i => ("Empty Seat " ++ toString (i + 1), (0 : Int)))

/-- The seat-scanning loop of `_parse_players`: consume consecutive tokens
matching the seat pattern, overwriting `players[seat - 1]`, and stop at the
first non-matching token. -/
def seatScan : List String → List (String × Int) → Except PyErr (List (String × Int))
  | [], ps => .ok ps
  | line :: rest, ps =>
    match reMatch seat_pattern line with
    | none => .ok ps
    | some caps =>
    match pyInt (grp caps 1) with
    | .error e => .error e
    | .ok n =>
    match pyInt (grp caps 3) with
    | .error e => .error e
    | .ok stack =>
    match pyListSet ps (n - 1) (grp caps 2, stack) with
    | .error e => .error e
    | .ok ps1 => seatScan rest ps1

/-- `_parse_players` -/
def parse_players (st : HandState) : Except PyErr HandState :=
  match st.max_players with
  | none => .error .attributeError
  | some mp =>
  match seatScan (st.splitted.drop 2) (placeholders mp) with
  | .error e => .error e
  | .ok plist =>
  match st.button_seat with
  | none => .error .attributeError
  | some bs =>
  match pyIndexGet plist (bs - 1) with
  | .error e => .error e
  | .ok btn =>
    .ok { st with button := some btn.1, players := some (odFromList plist) }

/-- `_parse_hole_cards` -/
def parse_hole_cards (st : HandState) : Except PyErr HandState :=
  match @pyIndexGet Nat st.sections 0 with
  | .error e => .error e
  | .ok s0 =>
  match pyIndexGet st.splitted ((s0 : Int) + 2) with
  | .error e => .error e
  | .ok line =>
  match reMatch dealt_to_pattern line with
  | none => .error .attributeError
  | some caps =>
  match st.players with
  | none => .error .attributeError
  | some ps =>
  match ps.findIdx? (fun p => p.1 == grp caps 1) with
  | none => .error .valueError
  | some idx =>
    .ok { st with hero := some (grp caps 1), hero_seat := some ((idx : Int) + 1),
                  hero_hole_cards := some (grp caps 2, grp caps 3) }

/-- `_parse_preflop` -/
def parse_preflop (st : HandState) : Except PyErr HandState :=
  match @pyIndexGet Nat st.sections 0 with
  | .error e => .error e
  | .ok s0 =>
  match @pyIndexGet Nat st.sections 1 with
  | .error e => .error e
  | .ok s1 =>
    .ok { st with preflop_actions := some (pySlice st.splitted (s0 + 3) s1) }

inductive Street where
  | flop
  | turn
  | river
deriving DecidableEq, Inhabited

def streetUpper : Street → String
  | .flop => "FLOP"
  | .turn => "TURN"
  | .river => "RIVER"

/-- `setattr(self, '%s_actions' % street, v)` -/
def setStreetActions (st : HandState) : Street → Option (List String) → HandState
  | .flop, v => { st with flop_actions := some v }
  | .turn, v => { st with turn_actions := some v }
  | .river, v => { st with river_actions := some v }

/-- The `except ValueError` branch: `setattr(self, street, None)` and
`setattr(self, '%s_actions' % street, None)`. -/
def setStreetNone (st : HandState) : Street → HandState
  | .flop => { st with flop := some none, flop_actions := some none }
  | .turn => { st with turn := some none, turn_actions := some none }
  | .river => { st with river := some none, river_actions := some none }

/-- The street attribute itself (`self.flop` / `self.turn` / `self.river`),
viewed as set or unset. -/
def streetUnset (st : HandState) : Street → Bool
  | .flop => st.flop.isNone
  | .turn => st.turn.isNone
  | .river => st.river.isNone

/-- Whether the street attribute holds an assigned Python `None`. -/
def streetIsNoneVal (st : HandState) : Street → Bool
  | .flop => st.flop == some none
  | .turn => st.turn == some none
  | .river => st.river == some none

/-- The street's actions attribute. -/
def streetActions (st : HandState) : Street → Option (Option (List String))
  | .flop => st.flop_actions
  | .turn => st.turn_actions
  | .river => st.river_actions

/-- `_parse_street` (the two `list.index` calls may raise `ValueError`,
caught by the `except` branch; everything else is total). -/
def parse_street (st : HandState) (street : Street) : HandState :=
  match listIndexOf st.splitted (streetUpper street) with
  | none => setStreetNone st street
  | some i =>
  match listIndexFrom st.splitted "" (i + 2) with
  | none => setStreetNone st street
  | some stop =>
    let acts := pySlice st.splitted (i + 2) stop
    setStreetActions st street (if acts.isEmpty then none else some acts)

/-- `_parse_pot` (only `total_pot` is assigned; the pattern's second group,
the rake, is not read). -/
def parse_pot (st : HandState) : Except PyErr HandState :=
  match @pyIndexGet Nat st.sections (-1) with
  | .error e => .error e
  | .ok sl =>
  match pyIndexGet st.splitted ((sl : Int) + 2) with
  | .error e => .error e
  | .ok potline =>
  match reMatch pot_pattern potline with
  | none => .error .attributeError
  | some caps =>
  match pyInt (grp caps 1) with
  | .error e => .error e
  | .ok tp => .ok { st with total_pot := some tp }

/-- `_parse_board`.  The source assigns `self.board = None` first and
returns early when the token does not start with `Board`; on an exception no
record is produced at all, so the early assignment is observable exactly in
the early-return state. -/
def parse_board (st : HandState) : Except PyErr HandState :=
  match @pyIndexGet Nat st.sections (-1) with
  | .error e => .error e
  | .ok sl =>
  match pyIndexGet st.splitted ((sl : Int) + 3) with
  | .error e => .error e
  | .ok boardline =>
    if ¬ pyStartsWith boardline "Board" then .ok { st with board := some none }
    else
      .ok { st with board := some (some (boardFindall boardline)),
                    flop := some (if (boardFindall boardline).isEmpty then none
                                  else some ((boardFindall boardline).take 3)),
                    turn := some ((boardFindall boardline).get? 3),
                    river := some ((boardFindall boardline).get? 4) }

/-- The scanning loop of `_parse_winners`. -/
def winnersScan (sd : Bool) : List String → List String → Except PyErr (List String)
  | [], ws => .ok ws
  | line :: rest, ws =>
    if sd = false ∧ strContains line "collected" then
      match reMatch winner_pattern line with
      | none => .error .attributeError
      | some caps => winnersScan sd rest (setAdd ws (grp caps 2))
    else if sd = true ∧ strContains line "won" then
      match reMatch showdown_pattern line with
      | none => .error .attributeError
      | some caps => winnersScan sd rest (setAdd ws (grp caps 2))
    else winnersScan sd rest ws

/-- `_parse_winners` -/
def parse_winners (st : HandState) : Except PyErr HandState :=
  match st.show_down with
  | none => .error .attributeError
  | some sd =>
  match @pyIndexGet Nat st.sections (-1) with
  | .error e => .error e
  | .ok sl =>
  match winnersScan sd (st.splitted.drop (sl + 4)) [] with
  | .error e => .error e
  | .ok ws => .ok { st with winners := some ws }

/-- The three `_parse_street` calls followed by
`self.show_down = "SHOW DOWN" in self._splitted`. -/
def streetsAndShowdown (st : HandState) : HandState :=
  let st6 := parse_street st .flop
  let st7 := parse_street st6 .turn
  let st8 := parse_street st7 .river
  { st8 with show_down := some (st8.splitted.contains "SHOW DOWN") }

/-- `parse`: header (unless already parsed), then the body steps in source
order, then the parsed flag. -/
def parseBody (st : HandState) : Except PyErr HandState :=
  match (if st.header_parsed then .ok st else parse_header st) with
  | .error e => .error e
  | .ok st1 =>
  match parse_table st1 with
  | .error e => .error e
  | .ok st2 =>
  match parse_players st2 with
  | .error e => .error e
  | .ok st3 =>
  match parse_hole_cards st3 with
  | .error e => .error e
  | .ok st4 =>
  match parse_preflop st4 with
  | .error e => .error e
  | .ok st5 =>
    match parse_pot (streetsAndShowdown st5) with
    | .error e => .error e
    | .ok st10 =>
    match parse_board st10 with
    | .error e => .error e
    | .ok st11 =>
    match parse_winners st11 with
    | .error e => .error e
    | .ok st12 => .ok { st12 with parsed := true }

/-- `PokerStarsHand(hand_text)`: split, record section boundaries, parse. -/
def parseHand (hand_text : String) : Except PyErr HandState :=
  parseBody (initState hand_text)

/-! ## Shape lemmas

Each successful step is exactly a record update of its input state; these
lemmas expose the updated fields and the intermediate values, and are the
frame conditions used to carry facts through the pipeline. -/

theorem parse_pot_shape {st st' : HandState} (h : parse_pot st = .ok st') :
    ∃ sl potline caps tp,
      @pyIndexGet Nat st.sections (-1) = .ok sl ∧
      pyIndexGet st.splitted ((sl : Int) + 2) = .ok potline ∧
      reMatch pot_pattern potline = some caps ∧
      pyInt (grp caps 1) = .ok tp ∧
      st' = { st with total_pot := some tp } := by
  unfold parse_pot at h
  split at h
  · exact Except.noConfusion h
  next sl hsl =>
    split at h
    · exact Except.noConfusion h
    next potline hline =>
      split at h
      · exact Except.noConfusion h
      next caps hm =>
        split at h
        · exact Except.noConfusion h
        next tp htp =>
          injection h with h
          exact ⟨sl, potline, caps, tp, hsl, hline, hm, htp, h.symm⟩

theorem parse_header_shape {st st' : HandState} (h : parse_header st = .ok st') :
    ∃ line caps gt sb bb buyin rake date game limit,
      pyIndexGet st.splitted 0 = .ok line ∧
      reMatch header_pattern line = some caps ∧
      tableLookup "game_type" TYPES (grp caps 3) = .ok gt ∧
      pyDecimal (grp caps 11) = .ok sb ∧
      pyDecimal (grp caps 12) = .ok bb ∧
      pyDecimal (grp caps 5) = .ok buyin ∧
      pyDecimal (grp caps 6) = .ok rake ∧
      strptimeET (grp caps 13) = .ok date ∧
      tableLookup "game" GAMES (grp caps 8) = .ok game ∧
      tableLookup "limit" LIMITS (grp caps 9) = .ok limit ∧
      st' = { st with game_type := some gt, sb := some sb, bb := some bb,
                      buyin := some buyin, rake := some rake, date := some date,
                      game := some game, limit := some limit,
                      ident := some (grp caps 2),
                      tournament_ident := some (grp caps 4),
                      tournament_level := some (grp caps 10),
                      currency := some (grp caps 7),
                      header_parsed := true } := by
  unfold parse_header at h
  split at h
  · exact Except.noConfusion h
  next line hline =>
    split at h
    · exact Except.noConfusion h
    next caps hm =>
      split at h
      · exact Except.noConfusion h
      next gt hgt =>
        split at h
        · exact Except.noConfusion h
        next sb hsb =>
          split at h
          · exact Except.noConfusion h
          next bb hbb =>
            split at h
            · exact Except.noConfusion h
            next buyin hbuyin =>
              split at h
              · exact Except.noConfusion h
              next rake hrake =>
                split at h
                · exact Except.noConfusion h
                next date hdate =>
                  split at h
                  · exact Except.noConfusion h
                  next game hgame =>
                    split at h
                    · exact Except.noConfusion h
                    next limit hlimit =>
                      injection h with h
                      exact ⟨line, caps, gt, sb, bb, buyin, rake, date, game, limit,
                             hline, hm, hgt, hsb, hbb, hbuyin, hrake, hdate, hgame,
                             hlimit, h.symm⟩

theorem parse_table_shape {st st' : HandState} (h : parse_table st = .ok st') :
    ∃ line caps mp bs,
      pyIndexGet st.splitted 1 = .ok line ∧
      reMatch table_pattern line = some caps ∧
      pyInt (grp caps 2) = .ok mp ∧
      pyInt (grp caps 3) = .ok bs ∧
      st' = { st with table_name := some (grp caps 1), max_players := some mp,
                      button_seat := some bs } := by
  unfold parse_table at h
  split at h
  · exact Except.noConfusion h
  next line hline =>
    split at h
    · exact Except.noConfusion h
    next caps hm =>
      split at h
      · exact Except.noConfusion h
      next mp hmp =>
        split at h
        · exact Except.noConfusion h
        next bs hbs =>
          injection h with h
          exact ⟨line, caps, mp, bs, hline, hm, hmp, hbs, h.symm⟩

theorem parse_players_shape {st st' : HandState} (h : parse_players st = .ok st') :
    ∃ mp plist bs btn,
      st.max_players = some mp ∧
      seatScan (st.splitted.drop 2) (placeholders mp) = .ok plist ∧
      st.button_seat = some bs ∧
      pyIndexGet plist (bs - 1) = .ok btn ∧
      st' = { st with button := some btn.1, players := some (odFromList plist) } := by
  unfold parse_players at h
  split at h
  · exact Except.noConfusion h
  next mp hmp =>
    split at h
    · exact Except.noConfusion h
    next plist hscan =>
      split at h
      · exact Except.noConfusion h
      next bs hbs =>
        split at h
        · exact Except.noConfusion h
        next btn hbtn =>
          injection h with h
          exact ⟨mp, plist, bs, btn, hmp, hscan, hbs, hbtn, h.symm⟩

theorem parse_hole_cards_shape {st st' : HandState} (h : parse_hole_cards st = .ok st') :
    ∃ s0 line caps ps idx,
      @pyIndexGet Nat st.sections 0 = .ok s0 ∧
      pyIndexGet st.splitted ((s0 : Int) + 2) = .ok line ∧
      reMatch dealt_to_pattern line = some caps ∧
      st.players = some ps ∧
      ps.findIdx? (fun p => p.1 == grp caps 1) = some idx ∧
      st' = { st with hero := some (grp caps 1), hero_seat := some ((idx : Int) + 1),
                      hero_hole_cards := some (grp caps 2, grp caps 3) } := by
  unfold parse_hole_cards at h
  split at h
  · exact Except.noConfusion h
  next s0 hs0 =>
    split at h
    · exact Except.noConfusion h
    next line hline =>
      split at h
      · exact Except.noConfusion h
      next caps hm =>
        split at h
        · exact Except.noConfusion h
        next ps hps =>
          split at h
          · exact Except.noConfusion h
          next idx hidx =>
            injection h with h
            exact ⟨s0, line, caps, ps, idx, hs0, hline, hm, hps, hidx, h.symm⟩

theorem parse_preflop_shape {st st' : HandState} (h : parse_preflop st = .ok st') :
    ∃ s0 s1,
      @pyIndexGet Nat st.sections 0 = .ok s0 ∧
      @pyIndexGet Nat st.sections 1 = .ok s1 ∧
      st' = { st with preflop_actions := some (pySlice st.splitted (s0 + 3) s1) } := by
  unfold parse_preflop at h
  split at h
  · exact Except.noConfusion h
  next s0 hs0 =>
    split at h
    · exact Except.noConfusion h
    next s1 hs1 =>
      injection h with h
      exact ⟨s0, s1, hs0, hs1, h.symm⟩

theorem parse_board_shape {st st' : HandState} (h : parse_board st = .ok st') :
    ∃ sl boardline,
      @pyIndexGet Nat st.sections (-1) = .ok sl ∧
      pyIndexGet st.splitted ((sl : Int) + 3) = .ok boardline ∧
      ((pyStartsWith boardline "Board" = false ∧ st' = { st with board := some none }) ∨
       (pyStartsWith boardline "Board" = true ∧
        st' = { st with
                board := some (some (boardFindall boardline)),
                flop := some (if (boardFindall boardline).isEmpty then none
                              else some ((boardFindall boardline).take 3)),
                turn := some ((boardFindall boardline).get? 3),
                river := some ((boardFindall boardline).get? 4) })) := by
  unfold parse_board at h
  split at h
  · exact Except.noConfusion h
  next sl hsl =>
    split at h
    · exact Except.noConfusion h
    next boardline hline =>
      split at h
      · next hsw =>
          injection h with h
          refine ⟨sl, boardline, hsl, hline, Or.inl ⟨?_, h.symm⟩⟩
          simpa using hsw
      · next hsw =>
          injection h with h
          refine ⟨sl, boardline, hsl, hline, Or.inr ⟨?_, ?_⟩⟩
          · simpa using hsw
          · exact h.symm

theorem parse_winners_shape {st st' : HandState} (h : parse_winners st = .ok st') :
    ∃ sd sl ws,
      st.show_down = some sd ∧
      @pyIndexGet Nat st.sections (-1) = .ok sl ∧
      winnersScan sd (st.splitted.drop (sl + 4)) [] = .ok ws ∧
      st' = { st with winners := some ws } := by
  unfold parse_winners at h
  split at h
  · exact Except.noConfusion h
  next sd hsd =>
    split at h
    · exact Except.noConfusion h
    next sl hsl =>
      split at h
      · exact Except.noConfusion h
      next ws hws =>
        injection h with h
        exact ⟨sd, sl, ws, hsd, hsl, hws, h.symm⟩

/-- `_parse_street` only touches the three attributes of its street. -/
theorem parse_street_frame (st : HandState) (street : Street) :
    (parse_street st street).splitted = st.splitted ∧
    (parse_street st street).sections = st.sections ∧
    (parse_street st street).preflop_actions = st.preflop_actions ∧
    (parse_street st street).buyin = st.buyin ∧
    (parse_street st street).players = st.players ∧
    (parse_street st street).show_down = st.show_down ∧
    (parse_street st street).winners = st.winners ∧
    (parse_street st street).total_pot = st.total_pot ∧
    (parse_street st street).board = st.board := by
  unfold parse_street
  split
  · cases street <;> simp [setStreetNone]
  · split
    · cases street <;> simp [setStreetNone]
    · cases street <;> simp [setStreetActions]

/-- Decomposition of a successful `parse`. -/
theorem parseBody_ok {st stF : HandState} (h : parseBody st = .ok stF) :
    ∃ st1 st2 st3 st4 st5 st10 st11 st12,
      (if st.header_parsed then Except.ok st else parse_header st) = .ok st1 ∧
      parse_table st1 = .ok st2 ∧
      parse_players st2 = .ok st3 ∧
      parse_hole_cards st3 = .ok st4 ∧
      parse_preflop st4 = .ok st5 ∧
      parse_pot (streetsAndShowdown st5) = .ok st10 ∧
      parse_board st10 = .ok st11 ∧
      parse_winners st11 = .ok st12 ∧
      stF = { st12 with parsed := true } := by
  unfold parseBody at h
  split at h
  · exact Except.noConfusion h
  next st1 h1 =>
    split at h
    · exact Except.noConfusion h
    next st2 h2 =>
      split at h
      · exact Except.noConfusion h
      next st3 h3 =>
        split at h
        · exact Except.noConfusion h
        next st4 h4 =>
          split at h
          · exact Except.noConfusion h
          next st5 h5 =>
            split at h
            · exact Except.noConfusion h
            next st10 h10 =>
              split at h
              · exact Except.noConfusion h
              next st11 h11 =>
                split at h
                · exact Except.noConfusion h
                next st12 h12 =>
                  injection h with h
                  exact ⟨st1, st2, st3, st4, st5, st10, st11, st12,
                         h1, h2, h3, h4, h5, h10, h11, h12, h.symm⟩

/-! ## Python indexing bridged to `List.get?` / `List.getLast?` -/

theorem pyNormIdx_ofNat (len n : Nat) :
    pyNormIdx len (n : Int) = if n < len then .ok n else .error .indexError := by
  simp only [pyNormIdx]
  rw [if_neg (by omega : ¬ ((n : Int) < 0))]
  by_cases h : n < len
  · rw [if_pos (by omega : (0 : Int) ≤ (n : Int) ∧ (n : Int) < (len : Int)), if_pos h]
    simp
  · rw [if_neg (by omega : ¬ ((0 : Int) ≤ (n : Int) ∧ (n : Int) < (len : Int))), if_neg h]

theorem pyNormIdx_neg_one (len : Nat) :
    pyNormIdx len (-1) = if 0 < len then .ok (len - 1) else .error .indexError := by
  simp only [pyNormIdx]
  rw [if_pos (by omega : (-1 : Int) < 0)]
  by_cases h : 0 < len
  · rw [if_pos (by omega : (0 : Int) ≤ (-1 : Int) + (len : Int) ∧ (-1 : Int) + (len : Int) < (len : Int)),
        if_pos h]
    congr 1
    omega
  · rw [if_neg (by omega : ¬ ((0 : Int) ≤ (-1 : Int) + (len : Int) ∧ (-1 : Int) + (len : Int) < (len : Int))),
        if_neg h]

theorem pyIndexGet_ofNat {α : Type} (l : List α) (n : Nat) (x : α) :
    pyIndexGet l (n : Int) = .ok x ↔ l.get? n = some x := by
  unfold pyIndexGet
  rw [pyNormIdx_ofNat]
  simp only [List.get?_eq_getElem?]
  by_cases h : n < l.length
  · rw [if_pos h]
    cases hg : l[n]? <;> simp [hg]
  · rw [if_neg h]
    simp [List.getElem?_eq_none (le_of_not_lt h)]

theorem pyIndexGet_neg_one {α : Type} (l : List α) (x : α) :
    pyIndexGet l (-1) = .ok x ↔ l.getLast? = some x := by
  unfold pyIndexGet
  rw [pyNormIdx_neg_one, List.getLast?_eq_getElem?]
  simp only [List.get?_eq_getElem?]
  by_cases h : 0 < l.length
  · rw [if_pos h]
    cases hg : l[l.length - 1]? <;> simp [hg]
  · rw [if_neg h]
    have hnil : l = [] := List.length_eq_zero.mp (by omega)
    subst hnil
    simp

/-- `streetsAndShowdown` leaves the pipeline-frame fields untouched. -/
theorem streetsAndShowdown_frame (st : HandState) :
    (streetsAndShowdown st).splitted = st.splitted ∧
    (streetsAndShowdown st).sections = st.sections ∧
    (streetsAndShowdown st).preflop_actions = st.preflop_actions ∧
    (streetsAndShowdown st).buyin = st.buyin ∧
    (streetsAndShowdown st).players = st.players ∧
    (streetsAndShowdown st).winners = st.winners ∧
    (streetsAndShowdown st).show_down = some (st.splitted.contains "SHOW DOWN") := by
  obtain ⟨a1, a2, a3, a4, a5, a6, a7, a8, a9⟩ := parse_street_frame st .flop
  obtain ⟨b1, b2, b3, b4, b5, b6, b7, b8, b9⟩ :=
    parse_street_frame (parse_street st .flop) .turn
  obtain ⟨c1, c2, c3, c4, c5, c6, c7, c8, c9⟩ :=
    parse_street_frame (parse_street (parse_street st .flop) .turn) .river
  unfold streetsAndShowdown
  refine ⟨?_, ?_, ?_, ?_, ?_, ?_, ?_⟩ <;>
    first
    | rfl
    | simp [a1, a2, a3, a4, a5, a6, a7, a8, a9, b1, b2, b3, b4, b5, b6, b7, b8, b9,
            c1, c2, c3, c4, c5, c6, c7, c8, c9]

/-! ## Concrete hand histories

`handA` is a complete, well-formed tournament hand in the room's export
format; the variants alter exactly one aspect each. -/

def handA : String := String.intercalate "\n"
  [ "PokerStars Hand #105024000105: Tournament #797469411, $3.19+$0.31 USD Omaha No Limit - Level I (10/20) - X [2013/10/04 13:53:27 ET]"
  , "Table " ++ sqc ++ "797469411 1" ++ sqc ++ " 9-max Seat #1 is the button"
  , "Seat 1: pjo80 (1500 in chips)"
  , "Seat 2: Brimill (1500 in chips)"
  , "Seat 3: XZ18 (1500 in chips)"
  , "XZ18: posts small blind 10"
  , "pjo80: posts big blind 20"
  , "*** HOLE CARDS ***"
  , "Dealt to pjo80 [Ah Kh]"
  , "Brimill: folds"
  , "XZ18: raises 20 to 40"
  , "pjo80: calls 20"
  , "*** FLOP *** [2s 6d 6h]"
  , "XZ18: bets 40"
  , "pjo80: folds"
  , "Uncalled bet (40) returned to XZ18"
  , "XZ18 collected (126) from pot"
  , "*** SUMMARY ***"
  , "Total pot 126 | Rake 0"
  , "Board [2s 6d 6h]"
  , "Seat 1: pjo80 (big blind) folded on the Flop"
  , "Seat 2: Brimill folded before Flop (did not bet)"
  , "Seat 3: XZ18 collected (126)"
  ]

/-- The state parsed from `handA`. -/
def handAState : HandState := (parseHand handA).toOption.getD {}

/-- `handA` without the hero reveal line. -/
def handC2 : String := String.intercalate "\n"
  [ "PokerStars Hand #105024000105: Tournament #797469411, $3.19+$0.31 USD Omaha No Limit - Level I (10/20) - X [2013/10/04 13:53:27 ET]"
  , "Table " ++ sqc ++ "797469411 1" ++ sqc ++ " 9-max Seat #1 is the button"
  , "Seat 1: pjo80 (1500 in chips)"
  , "Seat 2: Brimill (1500 in chips)"
  , "Seat 3: XZ18 (1500 in chips)"
  , "XZ18: posts small blind 10"
  , "pjo80: posts big blind 20"
  , "*** HOLE CARDS ***"
  , "Brimill: folds"
  , "XZ18: raises 20 to 40"
  , "pjo80: calls 20"
  , "*** FLOP *** [2s 6d 6h]"
  , "XZ18: bets 40"
  , "pjo80: folds"
  , "Uncalled bet (40) returned to XZ18"
  , "XZ18 collected (126) from pot"
  , "*** SUMMARY ***"
  , "Total pot 126 | Rake 0"
  , "Board [2s 6d 6h]"
  , "Seat 1: pjo80 (big blind) folded on the Flop"
  , "Seat 2: Brimill folded before Flop (did not bet)"
  , "Seat 3: XZ18 collected (126)"
  ]

/-- A state whose summary section carries a pot line with a non-zero rake. -/
def stC1 : HandState :=
  { splitted := ["", "x", "Total pot 150 | Rake 10"], sections := [0] }

/-! ## C1 -/

/-- C1: the claim states that the pot-extraction step stores both numbers of
the pot line — the total pot and the rake — as integers on the record.  It
fails: on a pot line whose pattern match captures both `150` and `10`,
`_parse_pot` produces a state that differs from its input in `total_pot`
alone; in particular the rake amount `10` is stored nowhere (the `rake`
field is still unset). -/
theorem C1_counterexample :
    (reMatch pot_pattern "Total pot 150 | Rake 10").map (fun c => (grp c 1, grp c 2)) =
      some ("150", "10") ∧
    parse_pot stC1 = .ok { stC1 with total_pot := some 150 } ∧
    ({ stC1 with total_pot := some (150 : Int) }).rake = none := ⟨rfl, rfl, rfl⟩

/-- C1 (amended): for every state whose pot line (the token at the last
section-boundary index + 2) matches the pot pattern, `_parse_pot` stores the
first captured number — the total pot — as an integer, and changes nothing
else; the rake is captured by the pattern but not stored. -/
theorem C1_pot_amended (st : HandState) (sl : Nat) (line : String) (caps : Captures)
    (n : Int)
    (hsl : st.sections.getLast? = some sl)
    (hline : st.splitted.get? (sl + 2) = some line)
    (hm : reMatch pot_pattern line = some caps)
    (hn : pyInt (grp caps 1) = .ok n) :
    parse_pot st = .ok { st with total_pot := some n } := by
  have h1 : @pyIndexGet Nat st.sections (-1) = .ok sl :=
    (pyIndexGet_neg_one st.sections sl).mpr hsl
  have h2 : pyIndexGet st.splitted ((sl : Int) + 2) = .ok line := by
    have h3 := (pyIndexGet_ofNat st.splitted (sl + 2) line).mpr hline
    push_cast at h3
    exact h3
  simp only [parse_pot, h1, h2, hm, hn]

/-- C1 amended, witnessed at `stC1`. -/
theorem C1_pot_amended_witness :
    parse_pot stC1 = .ok { stC1 with total_pot := some 150 } :=
  C1_pot_amended stC1 0 "Total pot 150 | Rake 10"
    ((reMatch pot_pattern "Total pot 150 | Rake 10").getD []) 150 rfl rfl rfl rfl

/-! ## C2 -/

/-- A minimal state whose token at (first section boundary + 2) is not a
hero-reveal line. -/
def stC2 : HandState := { splitted := ["", "x", "nothing here"], sections := [0] }

/-- C2: the claim states that when the token at (first section-boundary
index + 2) does not match the hero-reveal pattern, hole-card extraction
completes without raising and leaves the hero fields unset.  It fails: on a
complete hand text without a hero reveal, that token is an ordinary action
line, the pattern does not match, and `_parse_hole_cards` calls `.group` on
the failed match, so the whole parse raises (`AttributeError`) instead of
completing. -/
theorem C2_counterexample :
    (initState handC2).sections.get? 0 = some 7 ∧
    (initState handC2).splitted.get? (7 + 2) = some "Brimill: folds" ∧
    reMatch dealt_to_pattern "Brimill: folds" = none ∧
    parseHand handC2 = .error PyErr.attributeError := ⟨rfl, rfl, rfl, rfl⟩

/-- C2 (amended): whenever the token at (first section-boundary index + 2)
does not match the "Dealt to" pattern, `_parse_hole_cards` raises
(`AttributeError` from `.group` on the failed match); hero fields are set
only when the pattern matches. -/
theorem C2_hole_cards_amended (st : HandState) (s0 : Nat) (line : String)
    (h0 : st.sections.get? 0 = some s0)
    (hline : st.splitted.get? (s0 + 2) = some line)
    (hm : reMatch dealt_to_pattern line = none) :
    parse_hole_cards st = .error PyErr.attributeError := by
  have h1 : @pyIndexGet Nat st.sections 0 = .ok s0 := by
    have h := (pyIndexGet_ofNat st.sections 0 s0).mpr h0
    simpa using h
  have h2 : pyIndexGet st.splitted ((s0 : Int) + 2) = .ok line := by
    have h3 := (pyIndexGet_ofNat st.splitted (s0 + 2) line).mpr hline
    push_cast at h3
    exact h3
  simp only [parse_hole_cards, h1, h2, hm]

/-- C2 amended, witnessed at `stC2`. -/
theorem C2_hole_cards_amended_witness :
    parse_hole_cards stC2 = .error PyErr.attributeError :=
  C2_hole_cards_amended stC2 0 "nothing here" rfl rfl rfl

/-! ## C3 -/

/-- A header line whose limit token is `Fixed Limit` — a token that is not
a key of the closed `LIMITS` table (and not the literal `No Limit` the
header pattern requires). -/
def headerC3 : String :=
  "PokerStars Hand #105024000105: Tournament #797469411, $3.19+$0.31 USD Omaha Fixed Limit - Level I (10/20) - X [2013/10/04 13:53:27 ET]"

def stC3 : HandState := { splitted := [headerC3] }

/-- C3: the claim states that a limit token that is not a key of the closed
enumeration tables makes header parsing fail with `UnrecognizedFieldError`
naming "limit".  It fails: `Fixed Limit` is not a key of `LIMITS`, yet the
header pattern itself hard-codes the literal `No Limit`, so this header
line does not match the pattern at all, and `parse_header` raises the match
failure (`AttributeError` from `.group` on `None`) — the unknown limit
token never reaches any enumeration lookup, and no `UnrecognizedFieldError`
naming "limit" is produced. -/
theorem C3_counterexample :
    LIMITS.lookup "Fixed Limit" = none ∧
    reMatch header_pattern headerC3 = none ∧
    parse_header stC3 = .error PyErr.attributeError ∧
    PyErr.attributeError ≠ PyErr.unrecognizedField "limit" "Fixed Limit" :=
  ⟨rfl, rfl, rfl, by decide⟩

/-- C3 (amended): the game-variant token is the only enumeration field the
header pattern leaves open (game type and limit are fixed literals of the
pattern), and an unknown variant does fail the closed-table lookup with
`UnrecognizedFieldError` naming "game" and the raw value; an unknown limit
or game-type token instead makes the header pattern match fail, which
raises a match-failure error, not `UnrecognizedFieldError`. -/
theorem C3_header_amended (st : HandState) (line : String) (caps : Captures)
    (gt : String) (sb bb buyin rake : Rat) (date : PyDateTime)
    (h0 : st.splitted.get? 0 = some line)
    (hm : reMatch header_pattern line = some caps)
    (hgt : tableLookup "game_type" TYPES (grp caps 3) = .ok gt)
    (hsb : pyDecimal (grp caps 11) = .ok sb)
    (hbb : pyDecimal (grp caps 12) = .ok bb)
    (hbuy : pyDecimal (grp caps 5) = .ok buyin)
    (hrake : pyDecimal (grp caps 6) = .ok rake)
    (hdate : strptimeET (grp caps 13) = .ok date)
    (hg : GAMES.lookup (grp caps 8) = none) :
    parse_header st = .error (PyErr.unrecognizedField "game" (grp caps 8)) := by
  have h1 : pyIndexGet st.splitted 0 = .ok line := by
    have h := (pyIndexGet_ofNat st.splitted 0 line).mpr h0
    simpa using h
  have hgames : tableLookup "game" GAMES (grp caps 8) =
      .error (.unrecognizedField "game" (grp caps 8)) := by
    simp only [tableLookup, hg]
  simp only [parse_header, h1, hm, hgt, hsb, hbb, hbuy, hrake, hdate, hgames]

/-- A header line whose game-variant token `Razz` is not in the `GAMES`
table. -/
def headerRazz : String :=
  "PokerStars Hand #105024000105: Tournament #797469411, $3.19+$0.31 USD Razz No Limit - Level I (10/20) - X [2013/10/04 13:53:27 ET]"

def stRazz : HandState := { splitted := [headerRazz] }

def capsRazz : Captures := (reMatch header_pattern headerRazz).getD []

/-- C3 amended, witnessed on the `Razz` header. -/
theorem C3_header_amended_witness :
    parse_header stRazz = .error (PyErr.unrecognizedField "game" "Razz") := by
  have h := C3_header_amended stRazz headerRazz capsRazz
    ((tableLookup "game_type" TYPES (grp capsRazz 3)).toOption.getD "")
    ((pyDecimal (grp capsRazz 11)).toOption.getD 0)
    ((pyDecimal (grp capsRazz 12)).toOption.getD 0)
    ((pyDecimal (grp capsRazz 5)).toOption.getD 0)
    ((pyDecimal (grp capsRazz 6)).toOption.getD 0)
    ((strptimeET (grp capsRazz 13)).toOption.getD default)
    rfl rfl rfl rfl rfl rfl rfl rfl rfl
  simpa only [show grp capsRazz 8 = "Razz" from rfl] using h

/-! ## C4 -/

/-- C4: for any state in which a street marker is present but the token
slice from (marker index + 2) to the next empty token is empty, and whose
street attribute is still unset (as it is at this point of the pipeline),
`_parse_street` records "dealt but no recorded actions": the street's
actions attribute is assigned `None` while the street attribute itself
stays unset.  When the marker is absent entirely, the `except` branch
assigns `None` to both.  The two resulting states are distinct (street
attribute unset vs assigned `None`); the base class lives in the absent
`handparser.common` and, per the spec, leaves street attributes unset until
assigned. -/
theorem C4_street_states (st st2 : HandState) (street : Street) (idx stop : Nat)
    (h1 : streetUnset st street = true)
    (hidx : listIndexOf st.splitted (streetUpper street) = some idx)
    (hstop : listIndexFrom st.splitted "" (idx + 2) = some stop)
    (hempty : pySlice st.splitted (idx + 2) stop = [])
    (habs : listIndexOf st2.splitted (streetUpper street) = none) :
    streetActions (parse_street st street) street = some none ∧
    streetUnset (parse_street st street) street = true ∧
    streetIsNoneVal (parse_street st2 street) street = true ∧
    streetActions (parse_street st2 street) street = some none ∧
    streetUnset (parse_street st street) street ≠
      streetUnset (parse_street st2 street) street := by
  have hA : parse_street st street = setStreetActions st street none := by
    simp only [parse_street, hidx, hstop, hempty]
    simp
  have hB : parse_street st2 street = setStreetNone st2 street := by
    simp only [parse_street, habs]
  rw [hA, hB]
  cases street <;>
    simp_all [setStreetActions, setStreetNone, streetUnset, streetIsNoneVal, streetActions]

/-- Token sequence of an all-in hand around the turn: the `TURN` marker is
present, the board token follows, and the next token is already the empty
section boundary, so the action slice is empty. -/
def stC4a : HandState :=
  { splitted := ["", "TURN", "[2s 6d 6h Th]", "", "RIVER"], sections := [0, 3] }

/-- A state with no `TURN` marker at all. -/
def stC4b : HandState := { splitted := [] }

/-- C4, witnessed at a dealt-but-actionless turn vs an absent turn. -/
theorem C4_street_states_witness :
    streetActions (parse_street stC4a .turn) .turn = some none ∧
    streetUnset (parse_street stC4a .turn) .turn = true ∧
    streetIsNoneVal (parse_street stC4b .turn) .turn = true ∧
    streetActions (parse_street stC4b .turn) .turn = some none ∧
    streetUnset (parse_street stC4a .turn) .turn ≠
      streetUnset (parse_street stC4b .turn) .turn :=
  C4_street_states stC4a stC4b .turn 1 3 rfl rfl rfl rfl rfl

/-! ## C5 -/

/-- `handA` with only two cards on the board. -/
def handC5 : String := String.intercalate "\n"
  [ "PokerStars Hand #105024000105: Tournament #797469411, $3.19+$0.31 USD Omaha No Limit - Level I (10/20) - X [2013/10/04 13:53:27 ET]"
  , "Table " ++ sqc ++ "797469411 1" ++ sqc ++ " 9-max Seat #1 is the button"
  , "Seat 1: pjo80 (1500 in chips)"
  , "Seat 2: Brimill (1500 in chips)"
  , "Seat 3: XZ18 (1500 in chips)"
  , "XZ18: posts small blind 10"
  , "pjo80: posts big blind 20"
  , "*** HOLE CARDS ***"
  , "Dealt to pjo80 [Ah Kh]"
  , "Brimill: folds"
  , "XZ18: raises 20 to 40"
  , "pjo80: calls 20"
  , "*** FLOP *** [2s 6d]"
  , "XZ18: bets 40"
  , "pjo80: folds"
  , "Uncalled bet (40) returned to XZ18"
  , "XZ18 collected (126) from pot"
  , "*** SUMMARY ***"
  , "Total pot 126 | Rake 0"
  , "Board [2s 6d]"
  , "Seat 1: pjo80 (big blind) folded on the Flop"
  , "Seat 2: Brimill folded before Flop (did not bet)"
  , "Seat 3: XZ18 collected (126)"
  ]

/-- C5: the claim states that whenever parsing completes the board length is
in {0,3,4,5} and the flop is defined iff the board length is at least 3.
It fails: on a hand text whose board line lists two cards, parsing completes
with a board of length 2 (not in {0,3,4,5}) and with the flop field set (to
those two cards) although the board length is below 3. -/
theorem C5_counterexample :
    (parseHand handC5).toOption.map (fun st => (st.board, st.flop)) =
      some (some (some ["2s", "6d"]), some (some ["2s", "6d"])) ∧
    (["2s", "6d"] : List String).length = 2 ∧
    (2 : Nat) ∉ ([0, 3, 4, 5] : List Nat) ∧
    ¬ (3 ≤ 2) := ⟨rfl, rfl, by decide, by decide⟩

/-- C5 (amended): when the board line is present, the board is the tuple of
all extracted two-character card tokens — its length is whatever the line
yields, not constrained to {0,3,4,5} — and the derived fields satisfy:
flop is defined iff the card list is non-empty (holding the first up to 3
cards), turn is defined iff the length is at least 4, river iff at least 5;
hence river set implies turn set implies flop set. -/
theorem C5_board_amended (st st' : HandState) (sl : Nat) (line : String)
    (h : parse_board st = .ok st')
    (hsl : st.sections.getLast? = some sl)
    (hline : st.splitted.get? (sl + 3) = some line)
    (hb : pyStartsWith line "Board" = true) :
    st'.board = some (some (boardFindall line)) ∧
    st'.flop = some (if (boardFindall line).isEmpty then none
                     else some ((boardFindall line).take 3)) ∧
    st'.turn = some ((boardFindall line).get? 3) ∧
    st'.river = some ((boardFindall line).get? 4) ∧
    ((st'.river.getD none).isSome → (st'.turn.getD none).isSome) ∧
    ((st'.turn.getD none).isSome → (st'.flop.getD none).isSome) := by
  obtain ⟨sl2, line2, hsl2, hline2, hcase⟩ := parse_board_shape h
  have h2 := (pyIndexGet_neg_one st.sections sl).mpr hsl
  have esl : sl = sl2 := Except.ok.inj (h2.symm.trans hsl2)
  subst esl
  have h3 := (pyIndexGet_ofNat st.splitted (sl + 3) line).mpr hline
  push_cast at h3
  have eline : line = line2 := Except.ok.inj (h3.symm.trans hline2)
  subst eline
  rcases hcase with ⟨hf, _⟩ | ⟨_, hst⟩
  · rw [hb] at hf
    exact Bool.noConfusion hf
  · subst hst
    refine ⟨rfl, rfl, rfl, rfl, ?_, ?_⟩
    · simp only [Option.getD_some]
      intro hr
      have h4 : 4 < (boardFindall line).length := by
        rcases Option.isSome_iff_exists.mp hr with ⟨v, hv⟩
        exact (List.get?_eq_some.mp hv).1
      have h3lt : 3 < (boardFindall line).length := by omega
      rw [List.get?_eq_get h3lt]
      exact rfl
    · simp only [Option.getD_some]
      intro ht
      have h3lt : 3 < (boardFindall line).length := by
        rcases Option.isSome_iff_exists.mp ht with ⟨v, hv⟩
        exact (List.get?_eq_some.mp hv).1
      have hne : ¬ (boardFindall line).isEmpty = true := by
        cases hbf : boardFindall line with
        | nil => rw [hbf] at h3lt; simp at h3lt
        | cons a l => simp
      rw [if_neg hne]
      exact rfl

/-- A state whose summary section carries a full five-card board line. -/
def stC5w : HandState :=
  { splitted := ["", "x", "y", "Board [2s 6d 6h Th Ac]"], sections := [0] }

def stC5wRes : HandState := (parse_board stC5w).toOption.getD {}

/-- C5 amended, witnessed on a five-card board line. -/
theorem C5_board_amended_witness :
    stC5wRes.board = some (some ["2s", "6d", "6h", "Th", "Ac"]) ∧
    stC5wRes.river = some (some "Ac") := by
  have h := C5_board_amended stC5w stC5wRes 0 "Board [2s 6d 6h Th Ac]" rfl rfl rfl rfl
  refine ⟨?_, ?_⟩
  · simpa only [show boardFindall "Board [2s 6d 6h Th Ac]" =
      ["2s", "6d", "6h", "Th", "Ac"] from rfl] using h.1
  · simpa only [show boardFindall "Board [2s 6d 6h Th Ac]" =
      ["2s", "6d", "6h", "Th", "Ac"] from rfl] using h.2.2.2.1

/-! ## C6 -/

/-- A seat assignment `players[n - 1] = v` with a seat number in range
normalizes to `List.set`. -/
theorem pyListSet_ok {α : Type} (l : List α) (n : Int) (v : α)
    (h1 : 1 ≤ n) (h2 : n ≤ l.length) :
    pyListSet l (n - 1) v = .ok (l.set (n - 1).toNat v) := by
  simp only [pyListSet, pyNormIdx]
  rw [if_neg (by omega : ¬ (n - 1 < 0))]
  rw [if_pos (by omega : (0 : Int) ≤ n - 1 ∧ n - 1 < (l.length : Int))]

/-- The seat scan preserves the length of the seat list, and preserves the
entry at any position no scanned seat line targets. -/
theorem seatScan_preserve (lines : List String) (ps ps' : List (String × Int)) (i : Nat)
    (h : seatScan lines ps = .ok ps')
    (hl : ∀ line ∈ lines, ∀ caps, reMatch seat_pattern line = some caps →
        ∃ n : Int, pyInt (grp caps 1) = .ok n ∧ 1 ≤ n ∧ n ≤ ps.length ∧ n ≠ (i : Int) + 1) :
    ps'.length = ps.length ∧ ps'.get? i = ps.get? i := by
  induction lines generalizing ps with
  | nil =>
    unfold seatScan at h
    injection h with h
    subst h
    exact ⟨rfl, rfl⟩
  | cons line rest ih =>
    unfold seatScan at h
    split at h
    · injection h with h
      subst h
      exact ⟨rfl, rfl⟩
    next caps hm =>
      obtain ⟨n, hn, hn1, hn2, hni⟩ := hl line (by simp) caps hm
      simp only [hn] at h
      split at h
      · exact Except.noConfusion h
      next stack hstack =>
        rw [pyListSet_ok _ _ _ hn1 hn2] at h
        have hset : (ps.set (n - 1).toNat (grp caps 2, stack)).length = ps.length :=
          List.length_set ps ((n - 1).toNat) _
        have hrec := ih (ps.set (n - 1).toNat (grp caps 2, stack)) h ?_
        · refine ⟨hrec.1.trans hset, hrec.2.trans ?_⟩
          apply List.get?_set_ne
          omega
        · intro l2 hl2 caps2 hcaps2
          obtain ⟨m, hm2, hm3, hm4, hm5⟩ := hl l2 (by simp [hl2]) caps2 hcaps2
          exact ⟨m, hm2, hm3, by rw [hset]; exact hm4, hm5⟩

/-- `handA` at a 2-max table whose second listed seat line reads `Seat 0`:
the seat pattern accepts it, and `players[0 - 1]` hits Python's negative
indexing, overwriting the last slot. -/
def handC6 : String := String.intercalate "\n"
  [ "PokerStars Hand #105024000105: Tournament #797469411, $3.19+$0.31 USD Omaha No Limit - Level I (10/20) - X [2013/10/04 13:53:27 ET]"
  , "Table " ++ sqc ++ "T 1" ++ sqc ++ " 2-max Seat #1 is the button"
  , "Seat 1: alice (100 in chips)"
  , "Seat 0: bob (50 in chips)"
  , "alice: posts small blind 10"
  , "bob: posts big blind 20"
  , "*** HOLE CARDS ***"
  , "Dealt to alice [Ah Kh]"
  , "alice: raises 20 to 40"
  , "bob: folds"
  , "Uncalled bet (20) returned to alice"
  , "alice collected (40) from pot"
  , "*** SUMMARY ***"
  , "Total pot 40 | Rake 0"
  , "Seat 1: alice collected (40)"
  , "Seat 2: bob folded before Flop"
  ]

/-- C6: the claim states that every seat in [1, max_players] resolves to an
entry, unmatched seats keep their deterministic placeholder, and matched
seats overwrite their own placeholder.  The resolution part holds, but the
placeholder part fails: on `handC6` player extraction completes although no
seat line carries the number 2, yet seat 2's entry is ("bob", 50) — the
"Seat 0" line overwrote the last slot through Python's negative indexing —
instead of the placeholder ("Empty Seat 2", 0). -/
theorem C6_counterexample :
    (parseHand handC6).toOption.map (fun st => st.players) =
      some (some [("alice", 100), ("bob", 50)]) ∧
    ((initState handC6).splitted.all
      (fun t => ((reMatch seat_pattern t).map (fun c => grp c 1)) != some "2")) = true ∧
    [("alice", (100 : Int)), ("bob", 50)].get? 1 = some ("bob", 50) ∧
    ("bob", (50 : Int)) ≠ ("Empty Seat 2", 0) := ⟨rfl, rfl, rfl, by decide⟩

/-- C6 (amended): every seat in [1, max_players] resolves to a seating
entry (the seat list always has max_players entries), and — provided every
scanned seat line carries a seat number in [1, max_players] — a seat
matched by no line keeps its placeholder ("Empty Seat N", stack 0).  A
"Seat 0" line, accepted by the seat pattern, instead overwrites the last
slot via negative indexing, so without that proviso an unmatched seat can
lose its placeholder. -/
theorem C6_players_amended (st st' : HandState) (mp : Int)
    (plist : List (String × Int)) (i : Nat)
    (h : parse_players st = .ok st')
    (hmp : st.max_players = some mp)
    (hscan : seatScan (st.splitted.drop 2) (placeholders mp) = .ok plist)
    (hi : i < mp.toNat)
    (hl : ∀ line ∈ st.splitted.drop 2, ∀ caps, reMatch seat_pattern line = some caps →
        ∃ n : Int, pyInt (grp caps 1) = .ok n ∧ 1 ≤ n ∧ n ≤ mp ∧ n ≠ (i : Int) + 1) :
    plist.length = mp.toNat ∧
    plist.get? i = some ("Empty Seat " ++ toString (i + 1), 0) ∧
    st'.players = some (odFromList plist) := by
  have hplen : (placeholders mp).length = mp.toNat := by
    simp [placeholders]
  have hmp0 : 0 < mp := by omega
  have hl' : ∀ line ∈ st.splitted.drop 2, ∀ caps, reMatch seat_pattern line = some caps →
      ∃ n : Int, pyInt (grp caps 1) = .ok n ∧ 1 ≤ n ∧
        n ≤ (placeholders mp).length ∧ n ≠ (i : Int) + 1 := by
    intro l2 hl2 caps2 hcaps2
    obtain ⟨m, hm2, hm3, hm4, hm5⟩ := hl l2 hl2 caps2 hcaps2
    refine ⟨m, hm2, hm3, ?_, hm5⟩
    rw [hplen]
    omega
  obtain ⟨hlen, hget⟩ := seatScan_preserve _ _ _ i hscan hl'
  refine ⟨hlen.trans hplen, ?_, ?_⟩
  · rw [hget]
    unfold placeholders
    rw [List.get?_map, List.get?_range hi]
    rfl
  · obtain ⟨mp2, plist2, bs, btn, hmp2, hscan2, hbs2, hbtn2, hst'⟩ := parse_players_shape h
    have emp : mp = mp2 := Option.some.inj (hmp.symm.trans hmp2)
    subst emp
    have epl : plist = plist2 := Except.ok.inj (hscan.symm.trans hscan2)
    subst epl
    rw [hst']

/-- A minimal state for the amended-claim witness: a 3-max table with one
listed seat. -/
def stC6w : HandState :=
  { splitted := ["h", "t", "Seat 1: alice (100 in chips)", "x"],
    max_players := some 3, button_seat := some 1 }

def stC6wRes : HandState := (parse_players stC6w).toOption.getD {}

def capsSeat1 : Captures :=
  (reMatch seat_pattern "Seat 1: alice (100 in chips)").getD []

/-- C6 amended, witnessed at seat 2 of `stC6w` (never listed, keeps its
placeholder). -/
theorem C6_players_amended_witness :
    stC6wRes.players =
      some [("alice", 100), ("Empty Seat 2", 0), ("Empty Seat 3", 0)] ∧
    [("alice", (100 : Int)), ("Empty Seat 2", 0), ("Empty Seat 3", 0)].get? 1 =
      some ("Empty Seat 2", 0) := by
  have hl : ∀ line ∈ stC6w.splitted.drop 2, ∀ caps,
      reMatch seat_pattern line = some caps →
      ∃ n : Int, pyInt (grp caps 1) = .ok n ∧ 1 ≤ n ∧ n ≤ 3 ∧ n ≠ ((1 : Nat) : Int) + 1 := by
    intro line hline caps hcaps
    rw [show stC6w.splitted.drop 2 = ["Seat 1: alice (100 in chips)", "x"] from rfl] at hline
    rcases List.mem_cons.mp hline with e | hline2
    · subst e
      have e2 : capsSeat1 = caps :=
        Option.some.inj
          ((rfl : reMatch seat_pattern "Seat 1: alice (100 in chips)" = some capsSeat1).symm.trans
            hcaps)
      subst e2
      exact ⟨1, rfl, by decide, by decide, by decide⟩
    · rcases List.mem_cons.mp hline2 with e | h0
      · subst e
        rw [show reMatch seat_pattern "x" = none from rfl] at hcaps
        exact Option.noConfusion hcaps
      · exact absurd h0 (List.not_mem_nil _)
  have h := C6_players_amended stC6w stC6wRes 3
    [("alice", 100), ("Empty Seat 2", 0), ("Empty Seat 3", 0)] 1
    rfl rfl rfl (by decide) hl
  refine ⟨?_, h.2.1⟩
  have h2 := h.2.2
  simpa only [show odFromList [("alice", (100 : Int)), ("Empty Seat 2", 0), ("Empty Seat 3", 0)] =
    [("alice", 100), ("Empty Seat 2", 0), ("Empty Seat 3", 0)] from rfl] using h2

/-! ## C7 -/

/-- C7: for every hand text whose parse completes (and whose segmenter
output therefore has at least two section-boundary indices, here named by
`get? 0` and `get? 1`), the preflop action sequence of the final record is,
verbatim and in order, the token slice from (first section-boundary index
+ 3) up to but excluding (second section-boundary index); no step of the
pipeline parses those action tokens further. -/
theorem C7_preflop_verbatim (raw : String) (stF : HandState) (s0 s1 : Nat)
    (h : parseHand raw = .ok stF)
    (h0 : (initState raw).sections.get? 0 = some s0)
    (h1 : (initState raw).sections.get? 1 = some s1) :
    stF.preflop_actions = some (pySlice (initState raw).splitted (s0 + 3) s1) := by
  unfold parseHand at h
  obtain ⟨st1, st2, st3, st4, st5, st10, st11, st12, hh, ht, hp, hhc, hpf, hpot, hb, hw, hF⟩ :=
    parseBody_ok h
  have hinit : (initState raw).header_parsed = false := rfl
  rw [hinit] at hh
  simp only [Bool.false_eq_true, if_false] at hh
  obtain ⟨line, caps, gt, sb, bb, buyin, rake, date, game, limit,
          _, _, _, _, _, _, _, _, _, _, e1⟩ := parse_header_shape hh
  obtain ⟨tline, tcaps, mp, bs, _, _, _, _, e2⟩ := parse_table_shape ht
  obtain ⟨mp2, plist, bs2, btn, _, _, _, _, e3⟩ := parse_players_shape hp
  obtain ⟨hs0, hline, hcaps, hps, hidx, _, _, _, _, _, e4⟩ := parse_hole_cards_shape hhc
  have esp4 : st4.splitted = (initState raw).splitted := by
    subst e4 e3 e2 e1
    simp
  have esec4 : st4.sections = (initState raw).sections := by
    subst e4 e3 e2 e1
    simp
  obtain ⟨s0', s1', hs0', hs1', e5⟩ := parse_preflop_shape hpf
  have hs0'' : st4.sections.get? 0 = some s0' :=
    (pyIndexGet_ofNat st4.sections 0 s0').mp (by simpa using hs0')
  have hs1'' : st4.sections.get? 1 = some s1' :=
    (pyIndexGet_ofNat st4.sections 1 s1').mp (by simpa using hs1')
  rw [esec4] at hs0'' hs1''
  have es0 : s0' = s0 := Option.some.inj (hs0''.symm.trans h0)
  have es1 : s1' = s1 := Option.some.inj (hs1''.symm.trans h1)
  subst es0 es1
  have e5' : st5.preflop_actions = some (pySlice (initState raw).splitted (s0' + 3) s1') := by
    subst e5
    simp [esp4]
  have e9 : (streetsAndShowdown st5).preflop_actions = st5.preflop_actions :=
    (streetsAndShowdown_frame st5).2.2.1
  obtain ⟨psl, ppl, pcaps, tp, _, _, _, _, e10⟩ := parse_pot_shape hpot
  obtain ⟨bsl, bline, _, _, hbc⟩ := parse_board_shape hb
  obtain ⟨sd, wsl, ws, _, _, _, e12⟩ := parse_winners_shape hw
  have e10' : st10.preflop_actions = (streetsAndShowdown st5).preflop_actions := by
    subst e10
    simp
  have e11' : st11.preflop_actions = st10.preflop_actions := by
    rcases hbc with ⟨_, e11⟩ | ⟨_, e11⟩ <;> (subst e11; simp)
  have e12' : st12.preflop_actions = st11.preflop_actions := by
    subst e12
    simp
  have eF : stF.preflop_actions = st12.preflop_actions := by
    subst hF
    simp
  rw [eF, e12', e11', e10', e9, e5']

/-- C7, witnessed on `handA` (boundaries 7 and 13; the slice is the three
preflop action tokens). -/
theorem C7_preflop_verbatim_witness :
    handAState.preflop_actions =
      some ["Brimill: folds", "XZ18: raises 20 to 40", "pjo80: calls 20"] := by
  have h := C7_preflop_verbatim handA handAState 7 13 rfl rfl rfl
  simpa only [show pySlice (initState handA).splitted (7 + 3) 13 =
    ["Brimill: folds", "XZ18: raises 20 to 40", "pjo80: calls 20"] from rfl] using h

/-! ## C8 -/

/-- C8: the segmenter is a total function of the raw text — `initState` is
defined for every string, producing the token sequence split on the `***`
delimiter pattern or bare newlines and the recorded section boundaries —
and an index is recorded as a section boundary exactly when its token is
the empty string. -/
theorem C8_segmenter_total (raw : String) (i : Nat) :
    (initState raw).raw = raw ∧
    (initState raw).splitted = pySplit raw ∧
    (i ∈ (initState raw).sections ↔ (initState raw).splitted.get? i = some "") := by
  refine ⟨rfl, rfl, ?_⟩
  show i ∈ sectionIndices (pySplit raw) ↔ (pySplit raw).get? i = some ""
  unfold sectionIndices
  simp only [List.mem_map, List.mem_filter]
  constructor
  · rintro ⟨⟨j, a⟩, ⟨hmem, hbeq⟩, he⟩
    simp only at he
    subst he
    have ha : a = "" := by simpa using hbeq
    subst ha
    have hg := List.mk_mem_enum_iff_getElem?.mp hmem
    simpa [List.get?_eq_getElem?] using hg
  · intro hg
    refine ⟨(i, ""), ⟨?_, by simp⟩, rfl⟩
    apply List.mk_mem_enum_iff_getElem?.mpr
    simpa [List.get?_eq_getElem?] using hg

/-! ## C9 -/

theorem takeWhile_digits (ds1 ds2 : List Char) (h1 : ∀ c ∈ ds1, c.isDigit = true) :
    (ds1 ++ '.' :: ds2).takeWhile Char.isDigit = ds1 := by
  induction ds1 with
  | nil => simp
  | cons c cs ih =>
    have hc : c.isDigit = true := h1 c (by simp)
    simp only [List.cons_append, List.takeWhile_cons, hc, if_true]
    rw [ih (fun x hx => h1 x (by simp [hx]))]

theorem dropWhile_digits (ds1 ds2 : List Char) (h1 : ∀ c ∈ ds1, c.isDigit = true) :
    (ds1 ++ '.' :: ds2).dropWhile Char.isDigit = '.' :: ds2 := by
  induction ds1 with
  | nil => simp
  | cons c cs ih =>
    have hc : c.isDigit = true := h1 c (by simp)
    simp only [List.cons_append, List.dropWhile_cons, hc, if_true]
    exact ih (fun x hx => h1 x (by simp [hx]))

theorem pySign_digits (ds1 ds2 : List Char) (h1 : ∀ c ∈ ds1, c.isDigit = true) :
    pySign (ds1 ++ '.' :: ds2) = (1, ds1 ++ '.' :: ds2) := by
  cases ds1 with
  | nil => simp [pySign]
  | cons c cs =>
    have hc : c.isDigit = true := h1 c (by simp)
    have hp : ¬ c = '+' := by
      intro e
      subst e
      simp at hc
    have hm : ¬ c = '-' := by
      intro e
      subst e
      simp at hc
    simp [pySign, hp, hm]

/-- `Decimal` on a digits-dot-two-digits literal is the exact rational with
denominator 100. -/
theorem pyDecimal_two_places (ds1 ds2 : List Char)
    (h1 : ∀ c ∈ ds1, c.isDigit = true) (h2 : ∀ c ∈ ds2, c.isDigit = true)
    (hlen : ds2.length = 2) :
    pyDecimal (String.mk (ds1 ++ '.' :: ds2)) =
      .ok ((natOfDigits (ds1 ++ ds2) : Rat) / 100) := by
  have hne : ds2 ≠ [] := by
    intro e
    rw [e] at hlen
    simp at hlen
  simp only [pyDecimal, pySign_digits ds1 ds2 h1]
  simp only [takeWhile_digits ds1 ds2 h1, dropWhile_digits ds1 ds2 h1]
  simp only [List.all_eq_true.mpr h2, hne, hlen, and_false, not_false_eq_true, and_true,
             true_and, if_true, one_mul]
  norm_num

/-- C9: for every header line the pattern matches whose buy-in literal has
the form digits `.` two digits, the parsed record's buy-in field is the
exact rational (combined digits) / 100 — e.g. "10.50" is exactly 1050 minor
units — and multiplying back by 100 recovers the integer exactly (no
floating-point approximation exists anywhere in the computation; the other
stake fields go through the same `pyDecimal`). -/
theorem C9_header_decimal_exact (st st' : HandState) (line : String) (caps : Captures)
    (ds1 ds2 : List Char)
    (h : parse_header st = .ok st')
    (h0 : st.splitted.get? 0 = some line)
    (hm : reMatch header_pattern line = some caps)
    (hbuy : grp caps 5 = String.mk (ds1 ++ '.' :: ds2))
    (h1 : ∀ c ∈ ds1, c.isDigit = true) (h2 : ∀ c ∈ ds2, c.isDigit = true)
    (hlen : ds2.length = 2) :
    st'.buyin = some ((natOfDigits (ds1 ++ ds2) : Rat) / 100) ∧
    ((natOfDigits (ds1 ++ ds2) : Rat) / 100) * 100 = (natOfDigits (ds1 ++ ds2) : Rat) := by
  obtain ⟨line2, caps2, gt, sb, bb, buyin, rake, date, game, limit,
          hline2, hm2, _, _, _, hbuy2, _, _, _, _, e⟩ := parse_header_shape h
  have h0' : pyIndexGet st.splitted 0 = .ok line := by
    have hq := (pyIndexGet_ofNat st.splitted 0 line).mpr h0
    simpa using hq
  have el : line = line2 := Except.ok.inj (h0'.symm.trans hline2)
  subst el
  have ec : caps = caps2 := Option.some.inj (hm.symm.trans hm2)
  subst ec
  rw [hbuy, pyDecimal_two_places ds1 ds2 h1 h2 hlen] at hbuy2
  have eb : ((natOfDigits (ds1 ++ ds2) : Rat) / 100) = buyin := Except.ok.inj hbuy2
  constructor
  · rw [e]
    simp [eb]
  · rw [div_mul_cancel₀]
    norm_num

/-- The first token of `handA`: its header line. -/
def headerA : String :=
  "PokerStars Hand #105024000105: Tournament #797469411, $3.19+$0.31 USD Omaha No Limit - Level I (10/20) - X [2013/10/04 13:53:27 ET]"

def stHA : HandState := initState handA

def stHARes : HandState := (parse_header stHA).toOption.getD {}

def capsA : Captures := (reMatch header_pattern headerA).getD []

/-- C9, witnessed on `handA`'s buy-in literal "3.19" = 319 minor units. -/
theorem C9_header_decimal_exact_witness :
    stHARes.buyin = some ((319 : Rat) / 100) ∧ ((319 : Rat) / 100) * 100 = 319 := by
  have h := C9_header_decimal_exact stHA stHARes headerA capsA ['3'] ['1', '9']
    rfl rfl rfl rfl (by decide) (by decide) rfl
  have hN : (natOfDigits (['3'] ++ ['1', '9']) : Rat) = (319 : Rat) := by
    rw [show natOfDigits (['3'] ++ ['1', '9']) = 319 from rfl]
    norm_num
  rw [hN] at h
  exact h

/-! ## C10 -/

theorem setAdd_mem (ws : List String) (v w : String) :
    w ∈ setAdd ws v ↔ w ∈ ws ∨ w = v := by
  unfold setAdd
  split
  · next hv =>
    constructor
    · exact Or.inl
    · rintro (h | rfl)
      · exact h
      · exact hv
  · simp [List.mem_append]

/-- Membership characterization of the winner scan: a name is collected
exactly when it was already in the accumulator or some scanned line selects
it under the showdown flag's pattern. -/
theorem winnersScan_mem (sd : Bool) (lines : List String) (ws0 ws : List String)
    (h : winnersScan sd lines ws0 = .ok ws) (w : String) :
    w ∈ ws ↔ w ∈ ws0 ∨ ∃ line ∈ lines,
      ((sd = false ∧ strContains line "collected" = true ∧
        (reMatch winner_pattern line).map (fun c => grp c 2) = some w) ∨
       (sd = true ∧ strContains line "won" = true ∧
        (reMatch showdown_pattern line).map (fun c => grp c 2) = some w)) := by
  induction lines generalizing ws0 with
  | nil =>
    unfold winnersScan at h
    injection h with h
    subst h
    simp
  | cons line rest ih =>
    unfold winnersScan at h
    split at h
    · next hc =>
      obtain ⟨hsd, hcol⟩ := hc
      subst hsd
      split at h
      · exact Except.noConfusion h
      next caps hcap =>
        have hrec := ih _ h
        rw [hrec, setAdd_mem]
        simp only [List.exists_mem_cons_iff, hcap, hcol, Option.map_some]
        constructor
        · rintro ((hw | rfl) | hrest)
          · exact Or.inl hw
          · exact Or.inr (Or.inl (Or.inl ⟨trivial, trivial, rfl⟩))
          · exact Or.inr (Or.inr hrest)
        · rintro (hw | ((⟨_, _, hsome⟩ | ⟨hff, _, _⟩) | hrest))
          · exact Or.inl (Or.inl hw)
          · exact Or.inl (Or.inr (Option.some.inj hsome).symm)
          · exact Bool.noConfusion hff
          · exact Or.inr hrest
    · next hc1 =>
      split at h
      · next hc2 =>
        obtain ⟨hsd, hwon⟩ := hc2
        subst hsd
        split at h
        · exact Except.noConfusion h
        next caps hcap =>
          have hrec := ih _ h
          rw [hrec, setAdd_mem]
          simp only [List.exists_mem_cons_iff, hcap, hwon, Option.map_some]
          constructor
          · rintro ((hw | rfl) | hrest)
            · exact Or.inl hw
            · exact Or.inr (Or.inl (Or.inr ⟨trivial, trivial, rfl⟩))
            · exact Or.inr (Or.inr hrest)
          · rintro (hw | ((⟨htf, _, _⟩ | ⟨_, _, hsome⟩) | hrest))
            · exact Or.inl (Or.inl hw)
            · exact Bool.noConfusion htf
            · exact Or.inl (Or.inr (Option.some.inj hsome).symm)
            · exact Or.inr hrest
      · next hc2 =>
        have hrec := ih _ h
        rw [hrec]
        simp only [List.exists_mem_cons_iff]
        constructor
        · rintro (hw | hrest)
          · exact Or.inl hw
          · exact Or.inr (Or.inr hrest)
        · rintro (hw | ((⟨ha, hb, _⟩ | ⟨ha, hb, _⟩) | hrest))
          · exact Or.inl hw
          · exact absurd ⟨ha, hb⟩ hc1
          · exact absurd ⟨ha, hb⟩ hc2
          · exact Or.inr hrest

/-- C10: for every hand text whose parse completes, the showdown flag is
true iff some segmented token is exactly "SHOW DOWN", and this flag selects
the winner pattern: a name is a winner iff some token after (last
section-boundary index + 4) selects it — via the "collected" substring and
the non-showdown winner pattern when the flag is false, via the "won"
substring and the showdown pattern when it is true. -/
theorem C10_showdown_winners (raw : String) (stF : HandState) (sl : Nat) (ws : List String)
    (h : parseHand raw = .ok stF)
    (hsl : (initState raw).sections.getLast? = some sl)
    (hws : stF.winners = some ws) :
    stF.show_down = some ((initState raw).splitted.contains "SHOW DOWN") ∧
    ((initState raw).splitted.contains "SHOW DOWN" = true ↔
      "SHOW DOWN" ∈ (initState raw).splitted) ∧
    (∀ w, w ∈ ws ↔ ∃ line ∈ (initState raw).splitted.drop (sl + 4),
      (((initState raw).splitted.contains "SHOW DOWN") = false ∧
         strContains line "collected" = true ∧
         (reMatch winner_pattern line).map (fun c => grp c 2) = some w) ∨
      (((initState raw).splitted.contains "SHOW DOWN") = true ∧
         strContains line "won" = true ∧
         (reMatch showdown_pattern line).map (fun c => grp c 2) = some w)) := by
  unfold parseHand at h
  obtain ⟨st1, st2, st3, st4, st5, st10, st11, st12, hh, ht, hp, hhc, hpf, hpot, hb, hw, hF⟩ :=
    parseBody_ok h
  have hinit : (initState raw).header_parsed = false := rfl
  rw [hinit] at hh
  simp only [Bool.false_eq_true, if_false] at hh
  obtain ⟨line, caps, gt, sb, bb, buyin, rake, date, game, limit,
          _, _, _, _, _, _, _, _, _, _, e1⟩ := parse_header_shape hh
  obtain ⟨tline, tcaps, mp, bs, _, _, _, _, e2⟩ := parse_table_shape ht
  obtain ⟨mp2, plist, bs2, btn, _, _, _, _, e3⟩ := parse_players_shape hp
  obtain ⟨hs0, hline, hcaps, hps, hidx, _, _, _, _, _, e4⟩ := parse_hole_cards_shape hhc
  obtain ⟨s0', s1', hs0', hs1', e5⟩ := parse_preflop_shape hpf
  have esp5 : st5.splitted = (initState raw).splitted := by
    subst e5 e4 e3 e2 e1
    simp
  have esec5 : st5.sections = (initState raw).sections := by
    subst e5 e4 e3 e2 e1
    simp
  obtain ⟨fsp, fsec, _, _, _, fwin, fsd⟩ := streetsAndShowdown_frame st5
  obtain ⟨psl, ppl, pcaps, tp, _, _, _, _, e10⟩ := parse_pot_shape hpot
  obtain ⟨bsl, bline, _, _, hbc⟩ := parse_board_shape hb
  have esp10 : st10.splitted = (initState raw).splitted := by
    subst e10
    simpa [fsp] using esp5
  have esec10 : st10.sections = (initState raw).sections := by
    subst e10
    simpa [fsec] using esec5
  have esd10 : st10.show_down = some ((initState raw).splitted.contains "SHOW DOWN") := by
    subst e10
    simp [fsd, esp5]
  have esp11 : st11.splitted = (initState raw).splitted := by
    rcases hbc with ⟨_, e11⟩ | ⟨_, e11⟩ <;> (subst e11; simpa using esp10)
  have esec11 : st11.sections = (initState raw).sections := by
    rcases hbc with ⟨_, e11⟩ | ⟨_, e11⟩ <;> (subst e11; simpa using esec10)
  have esd11 : st11.show_down = some ((initState raw).splitted.contains "SHOW DOWN") := by
    rcases hbc with ⟨_, e11⟩ | ⟨_, e11⟩ <;> (subst e11; simpa using esd10)
  obtain ⟨sd, wsl, ws2, hsd2, hwsl, hscan, e12⟩ := parse_winners_shape hw
  have esd : sd = (initState raw).splitted.contains "SHOW DOWN" :=
    Option.some.inj (hsd2.symm.trans esd11)
  have ewsl : wsl = sl := by
    have hq := (pyIndexGet_neg_one st11.sections wsl).mp hwsl
    rw [esec11] at hq
    exact Option.some.inj (hq.symm.trans hsl)
  have ews : ws2 = ws := by
    have hq : stF.winners = some ws2 := by
      subst hF e12
      simp
    exact Option.some.inj (hq.symm.trans hws)
  have hsdF : stF.show_down = some ((initState raw).splitted.contains "SHOW DOWN") := by
    subst hF e12
    simpa using esd11
  refine ⟨hsdF, List.elem_iff, ?_⟩
  intro w
  have hscan' := winnersScan_mem sd _ [] ws2 hscan w
  rw [ews] at hscan'
  rw [hscan']
  rw [esp11, ewsl, esd]
  simp

def wsA : List String := handAState.winners.getD []

/-- C10, witnessed on `handA`: no "SHOW DOWN" token, so the flag is false
and the winner "XZ18" comes from the "collected" line of the summary. -/
theorem C10_showdown_winners_witness :
    handAState.show_down = some false ∧ "XZ18" ∈ wsA := by
  have h := C10_showdown_winners handA handAState 20 wsA rfl rfl rfl
  constructor
  · have h1 := h.1
    rw [show (initState handA).splitted.contains "SHOW DOWN" = false from rfl] at h1
    exact h1
  · exact (h.2.2 "XZ18").mpr (by decide)
